import Mathlib

/-!
Verification development for the it-manager automation worker and backend.

The Python sources are shallowly embedded:
- JSON-like dynamic values (`dict[str, Any]` rule trees, target snapshots)
  become the inductive `RVal`;
- SQLAlchemy boolean column expressions (`ColumnElement[bool]`) are modelled
  semantically as boolean predicates over a host row, with SQL NULL
  comparisons evaluating to false;
- Python exceptions (`AttributeError` from calling `.lower()` on a
  non-string, `ValueError` from `int()`) become `Except String`;
- datetimes are integer Unix timestamps in seconds
  (`timedelta(days=d)` = `d * 86400` seconds);
- the symmetric encryption service is modelled as the identity on strings
  (`decrypt_value (encrypt_value v) = v` is its only property used);
- Redis state (counters, locks, queues) and the backend database become
  explicit record states threaded through the loop bodies.
-/

namespace ItManager

/-- JSON-like Python values as stored in rule trees and snapshots. -/
inductive RVal where
  | null : RVal
  | s : String → RVal
  | i : Int → RVal
  | b : Bool → RVal
  | arr : List RVal → RVal
  | obj : List (String × RVal) → RVal

mutual

/-- Structural equality on `RVal`, the meaning of Python `==` on JSON
values. -/
def RVal.beq : RVal → RVal → Bool
  | .null, .null => true
  | .s a, .s c => a == c
  | .i a, .i c => a == c
  | .b a, .b c => a == c
  | .arr a, .arr c => beqList a c
  | .obj a, .obj c => beqPairs a c
  | _, _ => false
termination_by a _ => sizeOf a

/-- Elementwise `RVal.beq` on lists. -/
def beqList : List RVal → List RVal → Bool
  | [], [] => true
  | x :: xs, y :: ys => RVal.beq x y && beqList xs ys
  | _, _ => false
termination_by a _ => sizeOf a

/-- Elementwise `RVal.beq` on key/value pairs. -/
def beqPairs : List (String × RVal) → List (String × RVal) → Bool
  | [], [] => true
  | (k1, v1) :: xs, (k2, v2) :: ys => k1 == k2 && RVal.beq v1 v2 && beqPairs xs ys
  | _, _ => false
termination_by a _ => sizeOf a

end

instance : BEq RVal := ⟨RVal.beq⟩

/-- Python `dict.get`: first binding of the key, if present. -/
def dictGet : List (String × RVal) → String → Option RVal
  | [], _ => none
  | (k, v) :: rest, key => if k = key then some v else dictGet rest key

/-- Python truthiness on `RVal` (`bool(x)` is false for `None`, `""`, `0`,
`False`, `[]`, `{}`). -/
def rfalsy : RVal → Bool
  | .null => true
  | .s v => v == ""
  | .i v => v == 0
  | .b v => !v
  | .arr vs => vs.isEmpty
  | .obj fs => fs.isEmpty

/-- Python `d.get(k) or dflt`: the stored value unless missing or falsy. -/
def getOrDefault (fs : List (String × RVal)) (k : String) (dflt : RVal) : RVal :=
  match dictGet fs k with
  | none => dflt
  | some v => if rfalsy v then dflt else v

/-- Python `d.get(k)` with the `None` default made explicit. -/
def getOrNull (fs : List (String × RVal)) (k : String) : RVal :=
  (dictGet fs k).getD .null

/-- ASCII lower-casing, as `str.lower` on the identifiers used in rules. -/
def strLower (s : String) : String :=
  String.mk (s.toList.map Char.toLower)

/-- Python `v.lower()`: succeeds on strings, raises `AttributeError`
otherwise. -/
def pyLower : RVal → Except String String
  | .s v => .ok (strLower v)
  | _ => .error "AttributeError"

/-- `group_rules._as_list`, verbatim: `None` becomes `[]`, lists pass
through, anything else is wrapped in a singleton. -/
def asList : RVal → List RVal
  | .null => []
  | .arr vs => vs
  | v => [v]

/-- A host row, with the columns the rule compiler may reference
(`ALLOWED_FIELDS` plus the JSON `tags` column). -/
structure Host where
  name : String
  hostname : String
  environment : String
  os_type : String
  username : String
  port : Int
  tags : List (String × String)
deriving DecidableEq, Repr

/-- `group_rules.ALLOWED_FIELDS`. -/
def ALLOWED_FIELDS : List String :=
  ["name", "hostname", "environment", "os_type", "username", "port"]

/-- `group_rules.ALLOWED_OPS`. -/
def ALLOWED_OPS : List String :=
  ["eq", "neq", "contains", "in"]

/-- The value of a plain host column named by an element of
`ALLOWED_FIELDS` (`getattr(Host, field)` followed by row evaluation). -/
def hostColumn (field : String) (h : Host) : Option RVal :=
  if field = "name" then some (.s h.name)
  else if field = "hostname" then some (.s h.hostname)
  else if field = "environment" then some (.s h.environment)
  else if field = "os_type" then some (.s h.os_type)
  else if field = "username" then some (.s h.username)
  else if field = "port" then some (.i h.port)
  else none

/-- String lookup in the `tags` JSON column (`Host.tags[key].as_string()`),
`NULL` when the key is absent. -/
def tagColumn (key : String) (h : Host) : Option RVal :=
  match h.tags.lookup key with
  | some v => some (.s v)
  | none => none

/-- Evaluation of the SQL expression `col == value` on one row.
`col == None` compiles to `IS NULL`; comparing `NULL` to a non-null value
is SQL-unknown, which a `WHERE` clause treats as false. -/
def evalEq (cv : Option RVal) (value : RVal) : Bool :=
  match value with
  | .null => cv.isNone
  | v =>
    match cv with
    | none => false
    | some c => c == v

/-- Evaluation of the SQL expression `col != value` on one row. -/
def evalNeq (cv : Option RVal) (value : RVal) : Bool :=
  match value with
  | .null => cv.isSome
  | v =>
    match cv with
    | none => false
    | some c => c != v

/-- Python `str.strip`: drop leading and trailing whitespace. -/
def stripSpaces (cs : List Char) : List Char :=
  ((cs.dropWhile Char.isWhitespace).reverse.dropWhile Char.isWhitespace).reverse

/-- Whether `needle` occurs at the start of `hay`. -/
def startsWithChars : List Char → List Char → Bool
  | [], _ => true
  | _ :: _, [] => false
  | n :: ns, h :: hs => n == h && startsWithChars ns hs

/-- Whether `needle` occurs contiguously anywhere inside `hay`. -/
def containsChars (needle : List Char) : List Char → Bool
  | [] => needle.isEmpty
  | h :: hs => startsWithChars needle (h :: hs) || containsChars needle hs

/-- Case-insensitive substring test: `col.ilike (percent value percent)` on
one row. A `NULL` or non-string column value never matches. -/
def evalContains (cv : Option RVal) (value : String) : Bool :=
  match cv with
  | some (.s c) => containsChars (strLower value).toList (strLower c).toList
  | _ => false

/-- Evaluation of the SQL expression `col.in_(values)` on one row. -/
def evalIn (cv : Option RVal) (values : List RVal) : Bool :=
  match cv with
  | none => false
  | some c => values.contains c

/-- `group_rules._apply_op`: turn an operator and a comparison value into a
row predicate, or `none` for a malformed combination. -/
def applyOp (col : Host → Option RVal) (op : String) (value : RVal) :
    Option (Host → Bool) :=
  if op ∉ ALLOWED_OPS then none
  else if op = "eq" then some (fun h => evalEq (col h) value)
  else if op = "neq" then some (fun h => evalNeq (col h) value)
  else if op = "contains" then
    match value with
    | .s v => some (fun h => evalContains (col h) v)
    | _ => none
  else if op = "in" then
    let values := asList value
    if values.isEmpty then none else some (fun h => evalIn (col h) values)
  else none

/-- `group_rules._compile_condition`: compile one leaf condition, or `none`
when the field is not a string, not allow-listed, or the operator/value
combination is malformed. -/
def compileCondition (field : RVal) (op : String) (value : RVal) :
    Option (Host → Bool) :=
  match field with
  | .s f =>
    if startsWithChars "tags.".toList f.toList then
      let tagKey := String.mk (stripSpaces (f.toList.drop 5))
      if tagKey = "" then none
      else applyOp (tagColumn tagKey) op value
    else if f ∈ ALLOWED_FIELDS then applyOp (hostColumn f) op value
    else none
  | _ => none

theorem dictGet_sizeOf {fs : List (String × RVal)} {k : String} {v : RVal}
    (h : dictGet fs k = some v) : sizeOf v < sizeOf fs := by
  induction fs with
  | nil => simp [dictGet] at h
  | cons head tail ih =>
    obtain ⟨hk, hv⟩ := head
    simp only [dictGet] at h
    split at h
    · cases h
      simp only [List.cons.sizeOf_spec, Prod.mk.sizeOf_spec]
      omega
    · have := ih h
      simp only [List.cons.sizeOf_spec]
      omega

mutual

/-- `group_rules.build_host_filter`: compile a JSON rule tree into a row
predicate. An empty/falsy rule means "all hosts"; a block whose `rules` is
not a list or whose `op` is unknown compiles to `false()`; a block none of
whose children compiled also yields `false()`. A truthy non-dict argument,
or a truthy non-string `op` value, raises (`AttributeError`). -/
def buildHostFilter (rule : RVal) : Except String (Host → Bool) :=
  if rfalsy rule then .ok (fun _ => true)
  else
    match rule with
    | .obj fs =>
      match pyLower (getOrDefault fs "op" (.s "and")) with
      | .error e => .error e
      | .ok op =>
        match hr : dictGet fs "rules" with
        | some (.arr items) =>
          if op = "and" ∨ op = "or" then
            match compileItems items with
            | .error e => .error e
            | .ok compiled =>
              if compiled.isEmpty then .ok (fun _ => false)
              else if op = "and" then .ok (fun h => compiled.all (fun p => p h))
              else .ok (fun h => compiled.any (fun p => p h))
          else .ok (fun _ => false)
        | _ => .ok (fun _ => false)
    | _ => .error "AttributeError"
termination_by sizeOf rule
decreasing_by
  have := dictGet_sizeOf hr
  simp only [RVal.obj.sizeOf_spec, RVal.arr.sizeOf_spec] at *
  omega

/-- The `for item in rules` loop of `build_host_filter`: non-dict items are
skipped, dict items holding a `rules` key recurse, leaf items compile via
`_compile_condition` and are skipped when that yields `None`. -/
def compileItems (items : List RVal) : Except String (List (Host → Bool)) :=
  match items with
  | [] => .ok []
  | item :: rest =>
    match item with
    | .obj fs =>
      if (dictGet fs "rules").isSome then
        match buildHostFilter (.obj fs) with
        | .error e => .error e
        | .ok f =>
          match compileItems rest with
          | .error e => .error e
          | .ok r => .ok (f :: r)
      else
        let field := getOrNull fs "field"
        match pyLower (getOrDefault fs "op" (.s "")) with
        | .error e => .error e
        | .ok itemOp =>
          let value := getOrNull fs "value"
          match compileItems rest with
          | .error e => .error e
          | .ok r =>
            match compileCondition field itemOp value with
            | some e => .ok (e :: r)
            | none => .ok r
    | _ => compileItems rest
termination_by sizeOf items
decreasing_by
  all_goals simp only [List.cons.sizeOf_spec] at *
  all_goals omega

end

/-- A conjunction holding one well-formed leaf and one leaf whose field is
not allow-listed. -/
def c2BadRule : RVal := .obj [("op", .s "and"), ("rules", .arr [
  .obj [("field", .s "environment"), ("op", .s "eq"), ("value", .s "prod")],
  .obj [("field", .s "bogus"), ("op", .s "eq"), ("value", .s "x")]])]

/-- The same conjunction with the malformed leaf removed. -/
def c2GoodRule : RVal := .obj [("op", .s "and"), ("rules", .arr [
  .obj [("field", .s "environment"), ("op", .s "eq"), ("value", .s "prod")]])]

/-- A production host that the valid leaf of `c2BadRule` selects. -/
def c2Host : Host :=
  { name := "db1", hostname := "db1.local", environment := "prod",
    os_type := "linux", username := "root", port := 22, tags := [] }

/-! `worker.SECRET_REF_RE` and `worker._resolve_secret_refs`.

The worker compiles the raw-string pattern
`r"\\{\\{\\s*secret:(\\d+)\\s*\\}\\}"`.  Inside a raw string every `\\`
stays two characters, and the regex engine reads each `\\` as an escaped
literal backslash, so the compiled pattern is the concatenation
backslash `{` backslash `{` backslash `s`* `secret:` ( backslash `d`+ )
backslash `s`* backslash `}` backslash `}` — the quantified atoms are the
literal letters `s` and `d`, not whitespace/digit classes.  Since each
greedy run (`s`*, `d`+) is followed by a character differing from the
repeated one, greedy matching with backtracking is equivalent to taking
the maximal run, which is what the matcher below does. -/

/-- Longest run of the character `c` at the head of the list: its length
and the remainder. -/
def takeRun (c : Char) : List Char → Nat × List Char
  | [] => (0, [])
  | x :: xs =>
    if x == c then
      let r := takeRun c xs
      (r.1 + 1, r.2)
    else (0, x :: xs)

/-- Match a literal character sequence at the head of the input, returning
the remainder. -/
def matchLit : List Char → List Char → Option (List Char)
  | [], rest => some rest
  | _ :: _, [] => none
  | p :: ps, c :: cs => if p == c then matchLit ps cs else none

/-- One attempted match of `SECRET_REF_RE` at the head of the input:
`(group 0, group 1, remaining input)` on success.  Group 1 — what
`_resolve_secret_refs` feeds to `int()` — is a literal backslash followed
by a run of `d` characters. -/
def matchSecretRefAt (cs : List Char) : Option (List Char × List Char × List Char) :=
  match matchLit ['\\', '\x7b', '\\', '\x7b', '\\'] cs with
  | none => none
  | some r0 =>
    let s1 := takeRun 's' r0
    if s1.1 = 0 then none else
    match matchLit "ecret:".toList s1.2 with
    | none => none
    | some r2 =>
      match matchLit ['\\'] r2 with
      | none => none
      | some r3 =>
        let d1 := takeRun 'd' r3
        if d1.1 = 0 then none else
        match matchLit ['\\'] d1.2 with
        | none => none
        | some r5 =>
          let s2 := takeRun 's' r5
          match matchLit ['\\', '\x7d', '\\', '\x7d'] s2.2 with
          | none => none
          | some r7 =>
            some (cs.take (cs.length - r7.length), '\\' :: List.replicate d1.1 'd', r7)

theorem matchLit_length {p l r : List Char} (h : matchLit p l = some r) :
    r.length + p.length = l.length := by
  induction p generalizing l with
  | nil => simp [matchLit] at h; simp [h]
  | cons x xs ih =>
    cases l with
    | nil => simp [matchLit] at h
    | cons y ys =>
      simp only [matchLit] at h
      split at h
      · have := ih h
        simp only [List.length_cons]
        omega
      · cases h

theorem takeRun_length (c : Char) (l : List Char) :
    (takeRun c l).2.length ≤ l.length := by
  induction l with
  | nil => simp [takeRun]
  | cons x xs ih =>
    simp only [takeRun]
    split
    · simpa using Nat.le_succ_of_le ih
    · simp

theorem matchSecretRefAt_length {cs g0 g1 rest : List Char}
    (h : matchSecretRefAt cs = some (g0, g1, rest)) : rest.length < cs.length := by
  simp only [matchSecretRefAt] at h
  cases h0 : matchLit ['\\', '\x7b', '\\', '\x7b', '\\'] cs with
  | none => simp only [h0] at h; exact Option.noConfusion h
  | some r0 =>
    simp only [h0] at h
    by_cases hs1 : (takeRun 's' r0).1 = 0
    · simp only [if_pos hs1] at h; exact Option.noConfusion h
    · simp only [if_neg hs1] at h
      cases h2 : matchLit "ecret:".toList (takeRun 's' r0).2 with
      | none => simp only [h2] at h; exact Option.noConfusion h
      | some r2 =>
        simp only [h2] at h
        cases h3 : matchLit ['\\'] r2 with
        | none => simp only [h3] at h; exact Option.noConfusion h
        | some r3 =>
          simp only [h3] at h
          by_cases hd1 : (takeRun 'd' r3).1 = 0
          · simp only [if_pos hd1] at h; exact Option.noConfusion h
          · simp only [if_neg hd1] at h
            cases h5 : matchLit ['\\'] (takeRun 'd' r3).2 with
            | none => simp only [h5] at h; exact Option.noConfusion h
            | some r5 =>
              simp only [h5] at h
              cases h7 : matchLit ['\\', '\x7d', '\\', '\x7d'] (takeRun 's' r5).2 with
              | none => simp only [h7] at h; exact Option.noConfusion h
              | some r7 =>
                simp only [h7, Option.some.injEq, Prod.mk.injEq] at h
                obtain ⟨-, -, hrest⟩ := h
                subst hrest
                have l0 := matchLit_length h0
                have t1 := takeRun_length 's' r0
                have l2 := matchLit_length h2
                have l3 := matchLit_length h3
                have t2 := takeRun_length 'd' r3
                have l5 := matchLit_length h5
                have t3 := takeRun_length 's' r5
                have l7 := matchLit_length h7
                simp only [List.length_cons, List.length_nil] at *
                omega

/-- Whether the pattern matches anywhere — `list(SECRET_REF_RE.finditer(v))`
is nonempty. -/
def anyMatch : List Char → Bool
  | [] => false
  | c :: cs => (matchSecretRefAt (c :: cs)).isSome || anyMatch cs

/-- All non-overlapping matches, scanning left to right as
`re.finditer` does: `(group 0, group 1)` pairs. -/
def findMatches (s : List Char) : List (List Char × List Char) :=
  match s with
  | [] => []
  | c :: cs =>
    match hm : matchSecretRefAt (c :: cs) with
    | some (g0, g1, rest) => (g0, g1) :: findMatches rest
    | none => findMatches cs
termination_by s.length
decreasing_by
  · exact matchSecretRefAt_length hm
  · simp

/-- Python `int()` on the digit string of a capture group; `ValueError`
when any character is not a digit. -/
def pyInt (g : List Char) : Option Nat :=
  if g ≠ [] ∧ g.all Char.isDigit then
    some (g.foldl (fun acc c => acc * 10 + (c.toNat - 48)) 0)
  else none

/-- The per-match loop of `_resolve_secret_refs.resolve_value` on a string:
each match's id is parsed with `int()`, revealed once per run (the `cache`
records ids already revealed), and every occurrence of group 0 in the
accumulated result is replaced with the revealed value. -/
def resolveLoop (reveal : Nat → String) :
    List (List Char × List Char) → String → List Nat → Except String (String × List Nat)
  | [], result, cache => .ok (result, cache)
  | (g0, g1) :: ms, result, cache =>
    match pyInt g1 with
    | none => .error "ValueError"
    | some sid =>
      let cache2 := if sid ∈ cache then cache else cache ++ [sid]
      resolveLoop reveal ms (result.replace (String.mk g0) (reveal sid)) cache2

/-- `_resolve_secret_refs.resolve_value` on a string value: return the
string unchanged when the pattern matches nowhere, otherwise run the
replacement loop.  `reveal` is the backend reveal call; the returned list
is the ids revealed during the call (the per-run cache), in order. -/
def resolveString (reveal : Nat → String) (cache : List Nat) (s : String) :
    Except String (String × List Nat) :=
  let ms := findMatches s.toList
  if ms.isEmpty then .ok (s, cache)
  else resolveLoop reveal ms s cache

/-- The spec's example extra-variables string containing a secret
reference for secret 7. -/
def c1Input : String := "pw=\x7b\x7b secret:7 \x7d\x7d"

/-! Association-list store helpers, the model of id-keyed database tables
and of the Redis hash operations. -/

/-- First value bound to `key`, the model of a primary-key `db.get`. -/
def alookup {α : Type} : List (Nat × α) → Nat → Option α
  | [], _ => none
  | (k, v) :: rest, key => if k = key then some v else alookup rest key

/-- Apply `f` to every value bound to `key`, the model of mutating the
fetched row and committing. -/
def aupdate {α : Type} : List (Nat × α) → Nat → (α → α) → List (Nat × α)
  | [], _, _ => []
  | (k, v) :: rest, key, f =>
    if k = key then (k, f v) :: aupdate rest key f
    else (k, v) :: aupdate rest key f

/-- Drop every binding of `key`, the model of a row delete. -/
def aremove {α : Type} : List (Nat × α) → Nat → List (Nat × α)
  | [], _ => []
  | (k, v) :: rest, key =>
    if k = key then aremove rest key else (k, v) :: aremove rest key

/-- Python truthiness of an optional integer id (`None` and `0` are
falsy). -/
def optIdTruthy : Option Nat → Bool
  | none => false
  | some n => n ≠ 0

/-- Python truthiness of an optional string (`None` and `""` are falsy). -/
def optStrTruthy : Option String → Bool
  | none => false
  | some v => v ≠ ""

/-- A `JobRun` row, with the fields `runs.py` reads and writes. -/
structure RunRec where
  status : String
  logs : String
  project_id : Nat
  playbook_id : Nat
  target_snapshot : RVal
  started_at : Option Int
  finished_at : Option Int

/-- A `Playbook` row, reduced to what `claim_run` checks. -/
structure PlaybookRec where
  project_id : Nat

/-- `runs.claim_run`: 404 when missing or in another project, 409 when not
`pending`, 500 when the playbook is missing or cross-project; otherwise the
run becomes `running` with `started_at` stamped. -/
def claimRun (runs : List (Nat × RunRec)) (plays : List (Nat × PlaybookRec))
    (rid pid : Nat) (now : Int) : Except Nat (List (Nat × RunRec)) :=
  match alookup runs rid with
  | none => .error 404
  | some run =>
    if run.project_id ≠ pid then .error 404
    else if run.status ≠ "pending" then .error 409
    else
      match alookup plays run.playbook_id with
      | none => .error 500
      | some pb =>
        if pb.project_id ≠ pid then .error 500
        else .ok (aupdate runs rid (fun r => { r with status := "running", started_at := some now }))

/-- `runs.append_log`: 404 when missing or in another project, otherwise the
chunk is appended to the log text unconditionally. -/
def appendLog (runs : List (Nat × RunRec)) (rid pid : Nat) (chunk : String) :
    Except Nat (List (Nat × RunRec)) :=
  match alookup runs rid with
  | none => .error 404
  | some run =>
    if run.project_id ≠ pid then .error 404
    else .ok (aupdate runs rid (fun r => { r with logs := r.logs ++ chunk }))

/-- `runs.set_status`: 404 when missing or in another project, otherwise the
status is overwritten unconditionally and `finished_at` is set when the
payload carries a truthy value. -/
def setStatus (runs : List (Nat × RunRec)) (rid pid : Nat) (statusValue : String)
    (finishedAt : Option Int) : Except Nat (List (Nat × RunRec)) :=
  match alookup runs rid with
  | none => .error 404
  | some run =>
    if run.project_id ≠ pid then .error 404
    else .ok (aupdate runs rid (fun r =>
      { r with status := statusValue,
               finished_at := if finishedAt.isSome then finishedAt else r.finished_at }))

/-! `worker.consume_runs_loop` (lines 206-265), `worker._execute_run`
claim handling (lines 562-576) and `worker._bump_attempt`
(lines 1009-1018). -/

/-- Worker-side state for one run identifier: the Redis attempt counter,
the queue contents, and whether the abort path ran. -/
structure ConsumeState where
  attempts : Nat
  queue : List (Nat × Nat)
  statusSetFailed : Bool
  abortLogged : Bool
deriving DecidableEq, Repr

/-- `_execute_run` on a claim response other than 200 returns
`claim.status_code < 500`: client-type errors are handled, server-type
errors are transient. -/
def claimFailureHandled (claimStatus : Nat) : Bool :=
  claimStatus < 500

/-- The `if not handled` branch of `consume_runs_loop`: bump the attempt
counter; past `max_retries` log the abort line and set the run `failed`,
otherwise push the identifier back and sleep `min 5 (1 + attempts)`
seconds (returned as the second component). -/
def consumeFailureStep (maxRetries : Nat) (pid rid : Nat) (st : ConsumeState) :
    ConsumeState × Nat :=
  let attempts := st.attempts + 1
  if attempts > maxRetries then
    ({ st with attempts := attempts, statusSetFailed := true, abortLogged := true }, 0)
  else
    ({ st with attempts := attempts, queue := st.queue ++ [(pid, rid)] },
      min 5 (1 + attempts))

/-- One `consume_runs_loop` iteration when the claim call returned
`claimStatus ≠ 200`: a handled (client-type) failure changes nothing, a
transient (server-type) failure runs the retry branch. -/
def consumeClaimStep (maxRetries : Nat) (pid rid : Nat) (claimStatus : Nat)
    (st : ConsumeState) : ConsumeState × Nat :=
  if claimFailureHandled claimStatus then (st, 0)
  else consumeFailureStep maxRetries pid rid st

/-- One full loop iteration under an always-transient failure: block-pop
the identifier if queued (else the `blpop` times out and nothing happens),
then run the failure branch. -/
def consumeLoopTransientStep (maxRetries : Nat) (pid rid : Nat)
    (st : ConsumeState) : ConsumeState :=
  match st.queue with
  | [] => st
  | _ :: rest => (consumeFailureStep maxRetries pid rid { st with queue := rest }).1

/-- The state after the run identifier was first enqueued: counter at zero,
one queue entry, nothing failed. -/
def initialConsumeState (pid rid : Nat) : ConsumeState :=
  { attempts := 0, queue := [(pid, rid)], statusSetFailed := false, abortLogged := false }

/-- The worker state after `k` consecutive transient failures of one run. -/
def afterTransientFailures (maxRetries pid rid : Nat) (k : Nat) : ConsumeState :=
  (consumeLoopTransientStep maxRetries pid rid)^[k] (initialConsumeState pid rid)

/-! `secrets.py`: `_compute_next_rotation`, `create_secret`, `update_secret`,
`rotate_secret`, `reveal_secret_internal`, `delete_secret`, and the worker's
`_finalize_rotation`. -/

/-- A `Secret` row reduced to the fields these endpoints touch; encryption
is modelled as the identity, so `value`/`passphrase` stand for the
encrypted columns and their revealed plaintexts alike. -/
structure SecretRec where
  project_id : Option Nat
  value : String
  passphrase : Option String
  rotation_interval_days : Option Int
  last_rotated_at : Option Int
  next_rotated_at : Option Int
deriving DecidableEq, Repr

/-- `secrets._compute_next_rotation`: `None` unless a positive interval is
set; otherwise `last_rotated_at` (or `utcnow()` when null) plus the
interval in days. -/
def computeNextRotation (last : Option Int) (intervalDays : Option Int)
    (now : Int) : Option Int :=
  match intervalDays with
  | none => none
  | some d => if d ≤ 0 then none else some (last.getD now + d * 86400)

/-- Python `encrypt_value(p) if p else None` (resp. `... else old`): keep a
truthy payload string, else the fallback. -/
def pyStrOrElse (payload : Option String) (fallback : Option String) : Option String :=
  match payload with
  | some p => if p = "" then fallback else some p
  | none => fallback

/-- `secrets.create_secret`: `last_rotated_at` is the creation instant when
the value is truthy (the schema forces a non-empty value), and
`next_rotated_at` is derived from it. -/
def createSecret (pid : Nat) (scopeGlobal : Bool) (value : String)
    (passphrase : Option String) (intervalDays : Option Int) (now : Int) :
    SecretRec :=
  let last : Option Int := if value = "" then none else some now
  { project_id := if scopeGlobal then none else some pid,
    value := value,
    passphrase := pyStrOrElse passphrase none,
    rotation_interval_days := intervalDays,
    last_rotated_at := last,
    next_rotated_at := computeNextRotation last intervalDays now }

/-- `secrets.update_secret` on a fetched row: `exclude_none` keeps absent
payload fields unchanged, a provided value re-stamps `last_rotated_at`, and
`next_rotated_at` is recomputed from the (possibly unchanged)
`last_rotated_at` and interval. -/
def updateSecret (s : SecretRec) (pid : Nat) (scopeGlobal : Bool)
    (value : Option String) (passphrase : Option String)
    (intervalDays : Option Int) (now : Int) : SecretRec :=
  let shouldRotate := value.isSome
  let value2 := match value with
    | some v => if v = "" then s.value else v
    | none => s.value
  let interval2 := match intervalDays with
    | some d => some d
    | none => s.rotation_interval_days
  let last2 := if shouldRotate then some now else s.last_rotated_at
  { project_id := if scopeGlobal then none else some pid,
    value := value2,
    passphrase := pyStrOrElse passphrase s.passphrase,
    rotation_interval_days := interval2,
    last_rotated_at := last2,
    next_rotated_at := computeNextRotation last2 interval2 now }

/-- `secrets.rotate_secret` on a fetched row: overwrite the value, replace
the passphrase (dropped when the payload has none), stamp
`last_rotated_at := now` and recompute `next_rotated_at`. -/
def rotateSecretRec (s : SecretRec) (value : String) (passphrase : Option String)
    (now : Int) : SecretRec :=
  { s with value := value,
           passphrase := pyStrOrElse passphrase none,
           last_rotated_at := some now,
           next_rotated_at := computeNextRotation (some now) s.rotation_interval_days now }

/-- Project visibility shared by the secret endpoints: global secrets
(`project_id is None`) are visible everywhere, others only in their own
project. -/
def secretVisible (s : SecretRec) (pid : Nat) : Bool :=
  match s.project_id with
  | none => true
  | some p => p = pid

/-- `secrets.reveal_secret_internal`: 404 when missing or invisible, else
the decrypted value and optional passphrase. -/
def revealInternal (store : List (Nat × SecretRec)) (sid pid : Nat) :
    Except Nat (String × Option String) :=
  match alookup store sid with
  | none => .error 404
  | some s =>
    if secretVisible s pid then .ok (s.value, s.passphrase) else .error 404

/-- `secrets.rotate_secret` as a store operation: 404 checks, then the row
update. -/
def rotateEndpoint (store : List (Nat × SecretRec)) (sid pid : Nat)
    (value : String) (passphrase : Option String) (now : Int) :
    Except Nat (List (Nat × SecretRec)) :=
  match alookup store sid with
  | none => .error 404
  | some s =>
    if secretVisible s pid then
      .ok (aupdate store sid (fun r => rotateSecretRec r value passphrase now))
    else .error 404

/-- A `Host` row reduced to what `delete_secret` queries: its project and
its bound credential. -/
structure HostBind where
  project_id : Nat
  credential_id : Option Nat
deriving DecidableEq, Repr

/-- `secrets.delete_secret`: 404 checks, then refusal (400) when any host
is bound to the secret (project-filtered for project-scoped secrets), else
the row is deleted. -/
def deleteEndpoint (store : List (Nat × SecretRec)) (hosts : List HostBind)
    (sid pid : Nat) : Except Nat (List (Nat × SecretRec)) :=
  match alookup store sid with
  | none => .error 404
  | some s =>
    if secretVisible s pid then
      let bound := hosts.any (fun h =>
        h.credential_id = some sid &&
          (match s.project_id with
           | none => true
           | some _ => h.project_id = pid))
      if bound then .error 400 else .ok (aremove store sid)
    else .error 404

/-- `worker._finalize_rotation`: nothing happens without truthy rotation
ids; on terminal `success` the temporary secret is revealed and its value
rotated onto the target (reveal or rotate failures are only logged); in
every case the temporary secret is deleted afterwards (failures again only
logged). -/
def finalizeRotation (store : List (Nat × SecretRec)) (hosts : List HostBind)
    (pid : Nat) (statusValue : String)
    (targetSecretId tempSecretId : Option Nat) (now : Int) :
    List (Nat × SecretRec) :=
  if !optIdTruthy targetSecretId || !optIdTruthy tempSecretId then store
  else
    let target := targetSecretId.getD 0
    let temp := tempSecretId.getD 0
    let store1 :=
      if statusValue = "success" then
        match revealInternal store temp pid with
        | .ok (v, p) =>
          match rotateEndpoint store target pid v (pyStrOrElse p none) now with
          | .ok st => st
          | .error _ => store
        | .error _ => store
      else store
    match deleteEndpoint store1 hosts temp pid with
    | .ok st => st
    | .error _ => store1

/-! `worker.stale_runs_watchdog_loop` (lines 475-559), pending branch. -/

/-- The fields of one listed run that the watchdog's pending branch reads
(`approval_status`/`approval_id` come from the target snapshot). -/
structure WatchdogRun where
  id : Nat
  status : String
  created_at : Option Int
  approval_status : Option String
  approval_id : Option Nat
deriving DecidableEq, Repr

/-- Redis as the watchdog sees it: the set-if-absent lock keys currently
held and the run queue (`lpush` prepends). -/
structure RedisState where
  locks : List String
  queue : List String
deriving DecidableEq, Repr

/-- The per-run requeue lock key `itmgr:runs:requeue:{pid}:{run_id}`. -/
def requeueLockKey (pid rid : Nat) : String :=
  "itmgr:runs:requeue:" ++ toString pid ++ ":" ++ toString rid

/-- The queue entry `{pid}:{run_id}`. -/
def queueEntry (pid rid : Nat) : String :=
  toString pid ++ ":" ++ toString rid

/-- The watchdog's handling of one pending run: skip when younger than the
requeue threshold, when the snapshot shows a pending approval or a truthy
approval id, or when the `SET NX` lock is already held; otherwise take the
lock and push the identifier. -/
def watchdogPendingStep (pendingRequeueSeconds : Int) (now : Int) (pid : Nat)
    (run : WatchdogRun) (st : RedisState) : RedisState :=
  if run.status ≠ "pending" then st
  else
    match run.created_at with
    | none => st
    | some created =>
      if now - created < pendingRequeueSeconds then st
      else if run.approval_status = some "pending" || optIdTruthy run.approval_id then st
      else
        let key := requeueLockKey pid run.id
        if key ∈ st.locks then st
        else { locks := key :: st.locks, queue := queueEntry pid run.id :: st.queue }

/-! `worker._compute_due_key` (lines 1329-1367), interval branch.  The cron
branch delegates to the external `croniter` library and is not embedded. -/

/-- Python `int()` on a string: optional surrounding whitespace, optional
sign, then digits. -/
def pyIntString (s : String) : Option Int :=
  match stripSpaces s.toList with
  | '-' :: ds => (pyInt ds).map (fun n => -(n : Int))
  | '+' :: ds => (pyInt ds).map (fun n => (n : Int))
  | ds => (pyInt ds).map (fun n => (n : Int))

/-- The interval branch of `_compute_due_key`: parse the value, clamp it to
[10, 86400] seconds, fire when there is no recorded last run or it is at
least one interval old, and key the firing by the fixed window
`now // seconds` (Python floor division). -/
def computeDueKeyInterval (lastRunAt : Option Int) (value : String)
    (nowTs : Int) : Option String :=
  match pyIntString value with
  | none => none
  | some v =>
    let seconds := max 10 (min v 86400)
    match lastRunAt with
    | none => some ("i" ++ toString (Int.fdiv nowTs seconds))
    | some last =>
      if nowTs - last ≥ seconds then some ("i" ++ toString (Int.fdiv nowTs seconds))
      else none

/-! `worker._build_inventory` (lines 1180-1234) and `worker._escape_ini`. -/

/-- One host of a run's target snapshot, as the inventory builder reads
it. -/
structure SnapshotHost where
  id : Nat
  name : Option String
  hostname : String
  port : Option Int
  username : Option String
  credential_id : Option Nat

/-- The payload of `reveal_secret_internal` as the builder consumes it. -/
structure SecretPayload where
  value : String
  passphrase : Option String

/-- The characters `re.sub` keeps in a safe inventory host name
(`[^a-zA-Z0-9_.-]` is replaced by an underscore). -/
def safeNameChar (c : Char) : Bool :=
  (decide ('a' ≤ c) && decide (c ≤ 'z')) || (decide ('A' ≤ c) && decide (c ≤ 'Z')) ||
    (decide ('0' ≤ c) && decide (c ≤ '9')) || c == '_' || c == '.' || c == '-'

/-- `re.sub` of unsafe characters by underscores in a host name. -/
def sanitizeName (s : String) : String :=
  String.mk (s.toList.map (fun c => if safeNameChar c then c else '_'))

/-- `worker._escape_ini`: escape spaces, strip newlines. -/
def escapeIni (v : String) : String :=
  ((v.replace " " "\\ ").replace "\n" "").replace "\r" ""

/-- The `parts` list of `_build_inventory` before any credential handling:
safe name, address, port and user.  The public line is the space-join of
exactly this list. -/
def baseParts (h : SnapshotHost) : List String :=
  let name := match h.name with
    | some n => if n = "" then "host-" ++ toString h.id else n
    | none => "host-" ++ toString h.id
  let port : Int := match h.port with
    | some p => if p = 0 then 22 else p
    | none => 22
  let username := match h.username with
    | some u => if u = "" then "root" else u
    | none => "root"
  [sanitizeName name, "ansible_host=" ++ h.hostname,
   "ansible_port=" ++ toString port, "ansible_user=" ++ username]

/-- The sanitized public inventory line of one host: name, address, port
and user only. -/
def publicInventoryLine (h : SnapshotHost) : String :=
  String.intercalate " " (baseParts h)

/-- The loop body of `_build_inventory`: private lines, public lines
(joined from `parts` before any credential handling) and the ssh-agent key
list.  `meta` is the `GET /secrets/{id}` type when that call returns 200;
`reveal` is the internal reveal. -/
def buildInventoryLines (meta : Nat → Option String) (reveal : Nat → SecretPayload) :
    List SnapshotHost → List String × List String × List (String × Option String)
  | [] => ([], [], [])
  | h :: rest =>
    let base := baseParts h
    let credAgent : List String × List (String × Option String) :=
      match h.credential_id with
      | none => ([], [])
      | some cid =>
        if cid = 0 then ([], [])
        else
          match meta cid with
          | none => ([], [])
          | some secretType =>
            if secretType = "password" then
              (["ansible_password=" ++ escapeIni (reveal cid).value], [])
            else if secretType = "private_key" then
              let keyPath := "key_" ++ toString h.id ++ ".pem"
              match (reveal cid).passphrase with
              | some p =>
                if p ≠ "" then ([], [(keyPath, some p)])
                else (["ansible_ssh_private_key_file=" ++ keyPath], [])
              | none => (["ansible_ssh_private_key_file=" ++ keyPath], [])
            else ([], [])
    let tail := buildInventoryLines meta reveal rest
    (String.intercalate " " (base ++ credAgent.1) :: tail.1,
      String.intercalate " " base :: tail.2.1,
      credAgent.2 ++ tail.2.2)

/-- `worker.InventoryBuildResult`. -/
structure InventoryBuildResult where
  text : String
  text_public : String
  agent_keys : List (String × Option String)

/-- `worker._build_inventory`: the `[all]` header, one line per host, and a
trailing newline for both the private and the sanitized public text. -/
def buildInventory (meta : Nat → Option String) (reveal : Nat → SecretPayload)
    (hosts : List SnapshotHost) : InventoryBuildResult :=
  let parts := buildInventoryLines meta reveal hosts
  { text := String.intercalate "\n" ("[all]" :: parts.1 ++ [""]),
    text_public := String.intercalate "\n" ("[all]" :: parts.2.1 ++ [""]),
    agent_keys := parts.2.2 }

/-- A terminal (`success`) run, as the mutation endpoints would fetch it. -/
def c6Run : RunRec :=
  { status := "success", logs := "done", project_id := 1, playbook_id := 1,
    target_snapshot := .null, started_at := some 10, finished_at := some 50 }

/-- The run table holding just that terminal run. -/
def c6Runs : List (Nat × RunRec) :=
  [(1, c6Run)]

/-- The spec's rotation-timestamp invariant: when a (positive) rotation
interval is set, `next_rotated_at` equals `last_rotated_at` plus the
interval; when none is set, `next_rotated_at` is null. -/
def rotationInvariant (s : SecretRec) : Prop :=
  (∀ d, s.rotation_interval_days = some d → 1 ≤ d →
    ∃ l, s.last_rotated_at = some l ∧ s.next_rotated_at = some (l + d * 86400))
  ∧ ((∀ d, s.rotation_interval_days = some d → d ≤ 0) ∨ s.rotation_interval_days = none →
    s.next_rotated_at = none)

/-- The temporary helper secret `rotate_secret_apply` inserts: fresh value,
no rotation metadata (`last_rotated_at` and `next_rotated_at` null). -/
def c7TempSecret : SecretRec :=
  { project_id := some 1, value := "newpw", passphrase := none,
    rotation_interval_days := none, last_rotated_at := none, next_rotated_at := none }

/-- A concrete rotation target secret with a 1-day interval. -/
def c5Target : SecretRec :=
  { project_id := some 1, value := "oldpw", passphrase := none,
    rotation_interval_days := some 1, last_rotated_at := some 0,
    next_rotated_at := some 86400 }

/-- The concrete temporary rotation secret holding the new value. -/
def c5Temp : SecretRec :=
  { project_id := some 1, value := "freshpw", passphrase := none,
    rotation_interval_days := none, last_rotated_at := none,
    next_rotated_at := none }

/-- A secret table holding the rotation target (id 1) and the temporary
secret (id 2). -/
def c5Store : List (Nat × SecretRec) :=
  [(1, c5Target), (2, c5Temp)]

theorem alookup_aupdate_self {α : Type} (l : List (Nat × α)) (k : Nat) (f : α → α) :
    alookup (aupdate l k f) k = (alookup l k).map f := by
  induction l with
  | nil => simp [alookup, aupdate]
  | cons kv rest ih =>
    obtain ⟨k1, v1⟩ := kv
    by_cases hk : k1 = k
    · subst hk
      simp [aupdate, alookup]
    · simpa [aupdate, alookup, hk] using ih

theorem alookup_aupdate_ne {α : Type} (l : List (Nat × α)) (k k2 : Nat) (f : α → α)
    (h : k2 ≠ k) : alookup (aupdate l k f) k2 = alookup l k2 := by
  induction l with
  | nil => simp [alookup, aupdate]
  | cons kv rest ih =>
    obtain ⟨k1, v1⟩ := kv
    by_cases hk : k1 = k
    · subst hk
      simpa [aupdate, alookup, Ne.symm h] using ih
    · by_cases hk2 : k1 = k2
      · subst hk2
        simp [aupdate, alookup, hk]
      · simpa [aupdate, alookup, hk, hk2] using ih

theorem alookup_aremove_self {α : Type} (l : List (Nat × α)) (k : Nat) :
    alookup (aremove l k) k = none := by
  induction l with
  | nil => simp [alookup, aremove]
  | cons kv rest ih =>
    obtain ⟨k1, v1⟩ := kv
    by_cases hk : k1 = k
    · subst hk
      simpa [aremove, alookup] using ih
    · simpa [aremove, alookup, hk] using ih

theorem alookup_aremove_ne {α : Type} (l : List (Nat × α)) (k k2 : Nat)
    (h : k2 ≠ k) : alookup (aremove l k) k2 = alookup l k2 := by
  induction l with
  | nil => simp [alookup, aremove]
  | cons kv rest ih =>
    obtain ⟨k1, v1⟩ := kv
    by_cases hk : k1 = k
    · subst hk
      simpa [aremove, alookup, Ne.symm h] using ih
    · by_cases hk2 : k1 = k2
      · subst hk2
        simp [aremove, alookup, hk]
      · simpa [aremove, alookup, hk, hk2] using ih

theorem buildInventoryLines_public (meta : Nat → Option String)
    (reveal : Nat → SecretPayload) (hosts : List SnapshotHost) :
    (buildInventoryLines meta reveal hosts).2.1 = hosts.map publicInventoryLine := by
  induction hosts with
  | nil => simp [buildInventoryLines]
  | cons h t ih => simp [buildInventoryLines, publicInventoryLine, ih]

/-- C9: for an interval schedule of 300 seconds, `_compute_due_key`
produces a due key when the last run is 301 seconds old and whenever no
last run is recorded, produces none when the last run is 100 seconds old,
and any key produced for an instant inside a fixed 300-second window is
that window's key, so the key is deterministic for the window containing
`now`. -/
theorem c9_interval_due_key :
    (∀ now : Int, computeDueKeyInterval (some (now - 301)) "300" now
        = some ("i" ++ toString (Int.fdiv now 300)))
  ∧ (∀ now : Int, computeDueKeyInterval none "300" now
        = some ("i" ++ toString (Int.fdiv now 300)))
  ∧ (∀ now : Int, computeDueKeyInterval (some (now - 100)) "300" now = none)
  ∧ (∀ now1 now2 last1 last2 k1 k2, Int.fdiv now1 300 = Int.fdiv now2 300 →
      computeDueKeyInterval last1 "300" now1 = some k1 →
      computeDueKeyInterval last2 "300" now2 = some k2 → k1 = k2) := by
  have h300 : pyIntString "300" = some 300 := by decide
  have hsec : max 10 (min (300 : Int) 86400) = 300 := by decide
  have key : ∀ (last : Option Int) (now : Int) (k : String),
      computeDueKeyInterval last "300" now = some k →
      k = "i" ++ toString (Int.fdiv now 300) := by
    intro last now k h
    cases last with
    | none =>
      simp only [computeDueKeyInterval, h300, hsec] at h
      simpa using h.symm
    | some l =>
      simp only [computeDueKeyInterval, h300, hsec] at h
      by_cases hc : now - l ≥ 300
      · rw [if_pos hc] at h
        simpa using h.symm
      · rw [if_neg hc] at h
        cases h
  refine ⟨fun now => ?_, fun now => ?_, fun now => ?_, fun n1 n2 l1 l2 k1 k2 hw h1 h2 => ?_⟩
  · simp only [computeDueKeyInterval, h300, hsec]
    rw [if_pos (by omega)]
  · simp only [computeDueKeyInterval, h300, hsec]
  · simp only [computeDueKeyInterval, h300, hsec]
    rw [if_neg (by omega)]
  · rw [key l1 n1 k1 h1, key l2 n2 k2 h2, hw]

/-- Witness for C9 at concrete instants: a key fires with no recorded last
run, and two instants in the same 300-second window agree on the key. -/
theorem c9_interval_due_key_witness :
    computeDueKeyInterval (some (-301)) "300" 0 = some ("i" ++ toString (Int.fdiv 0 300))
    ∧ ("i2" : String) = "i2" :=
  ⟨(c9_interval_due_key).1 0,
    (c9_interval_due_key).2.2.2 600 899 none none "i2" "i2" (by decide)
      (by decide) (by decide)⟩

/-- C10: the sanitized public inventory is identical for any two
assignments of revealed secret values, and consists of exactly the `[all]`
header and one name/address/port/user line per host — it never carries an
`ansible_password` or private-key entry. -/
theorem c10_public_inventory_independent :
    ∀ (hosts : List SnapshotHost) (meta : Nat → Option String)
      (r1 r2 : Nat → SecretPayload),
      (buildInventory meta r1 hosts).text_public = (buildInventory meta r2 hosts).text_public
      ∧ (buildInventory meta r1 hosts).text_public
          = String.intercalate "\n" ("[all]" :: hosts.map publicInventoryLine ++ [""]) := by
  intro hosts meta r1 r2
  refine ⟨?_, ?_⟩ <;>
    simp [buildInventory, buildInventoryLines_public]


/-- C6 counterexample: on a run already in the terminal `success` status,
`append_log` succeeds and mutates the log text, and `set_status` succeeds
and moves the run back to `pending` — the endpoints enforce no
terminality. -/
theorem c6_terminal_mutation_counterexample :
    appendLog c6Runs 1 1 "late"
      = .ok [(1, { status := "success", logs := "donelate", project_id := 1, playbook_id := 1,
                   target_snapshot := .null, started_at := some 10, finished_at := some 50 })]
    ∧ setStatus c6Runs 1 1 "pending" none
      = .ok [(1, { status := "pending", logs := "done", project_id := 1, playbook_id := 1,
                   target_snapshot := .null, started_at := some 10, finished_at := some 50 })] := by
  exact ⟨rfl, rfl⟩

/-- C6 amended: `append_log` and `set_status` validate only run existence
and project membership; neither checks terminality, so on a terminal run
`append_log` still appends to the logs and `set_status` overwrites the
status (even back to a non-terminal one); `target_snapshot` is untouched by
both. -/
theorem c6_terminal_mutation_amended :
    ∀ (runs : List (Nat × RunRec)) (rid pid : Nat) (chunk statusValue : String)
      (fin : Option Int) (run : RunRec),
      alookup runs rid = some run → run.project_id = pid →
      (run.status = "success" ∨ run.status = "failed") →
      appendLog runs rid pid chunk
          = .ok (aupdate runs rid (fun r => { r with logs := r.logs ++ chunk }))
        ∧ alookup (aupdate runs rid (fun r => { r with logs := r.logs ++ chunk })) rid
          = some { run with logs := run.logs ++ chunk }
        ∧ setStatus runs rid pid statusValue fin
          = .ok (aupdate runs rid (fun r =>
              { r with status := statusValue,
                       finished_at := if fin.isSome then fin else r.finished_at }))
        ∧ alookup (aupdate runs rid (fun r =>
              { r with status := statusValue,
                       finished_at := if fin.isSome then fin else r.finished_at })) rid
          = some { run with status := statusValue,
                            finished_at := if fin.isSome then fin else run.finished_at } := by
  intro runs rid pid chunk statusValue fin run hlook hproj hterm
  refine ⟨?_, ?_, ?_, ?_⟩
  · simp [appendLog, hlook, hproj]
  · simp [alookup_aupdate_self, hlook]
  · simp [setStatus, hlook, hproj]
  · simp [alookup_aupdate_self, hlook]

/-- Witness for C6 amended at the concrete terminal run. -/
theorem c6_terminal_mutation_amended_witness :
    appendLog c6Runs 1 1 "x" = .ok (aupdate c6Runs 1 (fun r => { r with logs := r.logs ++ "x" })) :=
  (c6_terminal_mutation_amended c6Runs 1 1 "x" "pending" none c6Run rfl rfl (Or.inl rfl)).1

theorem rotationInvariant_of (s : SecretRec) (now : Int) (l : Int)
    (hl : s.last_rotated_at = some l)
    (hn : s.next_rotated_at = computeNextRotation s.last_rotated_at s.rotation_interval_days now) :
    rotationInvariant s := by
  constructor
  · intro d hd hd1
    refine ⟨l, hl, ?_⟩
    rw [hn, hl, hd]
    simp only [computeNextRotation, Option.getD_some]
    rw [if_neg (by omega)]
  · intro hc
    rw [hn]
    cases hi : s.rotation_interval_days with
    | none => simp [computeNextRotation]
    | some d =>
      rcases hc with hc | hc
      · have hd0 := hc d hi
        simp [computeNextRotation, if_pos hd0]
      · rw [hc] at hi
        exact Option.noConfusion hi

/-- C7 counterexample: updating a secret that has no recorded
`last_rotated_at` (the shape `rotate_secret_apply` inserts for its
temporary helper secret) and setting a 30-day interval leaves
`last_rotated_at` null while `next_rotated_at` becomes the operation time
plus the interval, so `next_rotated_at = last_rotated_at + interval` fails
with an interval set. -/
theorem c7_next_rotation_counterexample :
    ¬ rotationInvariant (updateSecret c7TempSecret 1 false none none (some 30) 1000) := by
  intro h
  obtain ⟨l, hl, -⟩ := h.1 30 rfl (by norm_num)
  rw [show (updateSecret c7TempSecret 1 false none none (some 30) 1000).last_rotated_at
      = none from rfl] at hl
  exact Option.noConfusion hl

/-- C7 amended: after `create_secret` (whose schema forces a non-empty
value) and after `rotate_secret` the invariant `next_rotated_at =
last_rotated_at + interval` (else null) always holds, and after
`update_secret` it holds whenever the secret has a `last_rotated_at`; when
it has none, the code bases `next_rotated_at` on the operation time
instead: `next = now + interval`. -/
theorem c7_next_rotation_amended :
    (∀ pid scopeGlobal value passphrase intervalDays now, value ≠ "" →
        rotationInvariant (createSecret pid scopeGlobal value passphrase intervalDays now))
  ∧ (∀ s value passphrase now, rotationInvariant (rotateSecretRec s value passphrase now))
  ∧ (∀ s pid scopeGlobal value passphrase intervalDays now l,
        (updateSecret s pid scopeGlobal value passphrase intervalDays now).last_rotated_at = some l →
        rotationInvariant (updateSecret s pid scopeGlobal value passphrase intervalDays now))
  ∧ (∀ s pid scopeGlobal value passphrase intervalDays now d,
        (updateSecret s pid scopeGlobal value passphrase intervalDays now).last_rotated_at = none →
        (updateSecret s pid scopeGlobal value passphrase intervalDays now).rotation_interval_days = some d →
        1 ≤ d →
        (updateSecret s pid scopeGlobal value passphrase intervalDays now).next_rotated_at
          = some (now + d * 86400)) := by
  refine ⟨?_, ?_, ?_, ?_⟩
  · intro pid sg v p i now hv
    refine rotationInvariant_of _ now now ?_ ?_
    · simp [createSecret, hv]
    · simp [createSecret, hv]
  · intro s v p now
    exact rotationInvariant_of _ now now rfl rfl
  · intro s pid sg v p i now l hl
    exact rotationInvariant_of _ now l hl rfl
  · intro s pid sg v p i now d hl hd hd1
    have hn : (updateSecret s pid sg v p i now).next_rotated_at
        = computeNextRotation (updateSecret s pid sg v p i now).last_rotated_at
            (updateSecret s pid sg v p i now).rotation_interval_days now := rfl
    rw [hn, hl, hd]
    simp only [computeNextRotation, Option.getD_none]
    rw [if_neg (by omega)]

/-- Witness for C7 amended: a freshly created secret with a 7-day interval
satisfies the invariant. -/
theorem c7_next_rotation_amended_witness :
    rotationInvariant (createSecret 1 false "pw" none (some 7) 100) :=
  (c7_next_rotation_amended).1 1 false "pw" none (some 7) 100 (by decide)


/-- C3: a claim response with a client-type (4xx) status is treated as
handled — no attempt bump, no requeue; a server-type (5xx) status bumps the
attempt counter and, while the counter is within `max_retries`, pushes the
identifier back onto the queue; and the backend claim endpoint answers a
non-pending run with 409, which is in the handled class. -/
theorem c3_claim_error_handling :
    (∀ (maxRetries pid rid claimStatus : Nat) (st : ConsumeState),
        400 ≤ claimStatus → claimStatus < 500 →
        consumeClaimStep maxRetries pid rid claimStatus st = (st, 0))
  ∧ (∀ (maxRetries pid rid claimStatus : Nat) (st : ConsumeState),
        500 ≤ claimStatus →
        (consumeClaimStep maxRetries pid rid claimStatus st).1.attempts = st.attempts + 1
        ∧ (st.attempts + 1 ≤ maxRetries →
            (consumeClaimStep maxRetries pid rid claimStatus st).1.queue
              = st.queue ++ [(pid, rid)]))
  ∧ (∀ (runs : List (Nat × RunRec)) (plays : List (Nat × PlaybookRec)) (rid pid : Nat)
        (now : Int) (run : RunRec),
        alookup runs rid = some run → run.project_id = pid → run.status ≠ "pending" →
        claimRun runs plays rid pid now = .error 409 ∧ claimFailureHandled 409 = true) := by
  refine ⟨?_, ?_, ?_⟩
  · intro maxRetries pid rid claimStatus st h4 h5
    simp [consumeClaimStep, claimFailureHandled, h5]
  · intro maxRetries pid rid claimStatus st h5
    have hnot : ¬ claimStatus < 500 := by omega
    constructor
    · simp only [consumeClaimStep, claimFailureHandled]
      rw [if_neg (by simpa using hnot)]
      simp only [consumeFailureStep]
      split <;> rfl
    · intro hcap
      simp only [consumeClaimStep, claimFailureHandled]
      rw [if_neg (by simpa using hnot)]
      simp only [consumeFailureStep]
      rw [if_neg (by omega)]
  · intro runs plays rid pid now run hlook hproj hstatus
    constructor
    · simp [claimRun, hlook, hproj, hstatus]
    · decide

/-- Witness for C3 at concrete statuses: a 404 claim is a no-op for the
retry state, a 503 claim bumps the counter. -/
theorem c3_claim_error_handling_witness :
    consumeClaimStep 3 1 5 404 (initialConsumeState 1 5) = (initialConsumeState 1 5, 0)
    ∧ (consumeClaimStep 3 1 5 503 (initialConsumeState 1 5)).1.attempts = 1 :=
  ⟨(c3_claim_error_handling).1 3 1 5 404 _ (by decide) (by decide),
   ((c3_claim_error_handling).2.1 3 1 5 503 _ (by decide)).1⟩

/-- C4 counterexample: with `max_retries = 1`, after exactly one transient
failure (that is, after `max_retries` failures) the run is *not* failed and
*is* re-enqueued; the terminal failure only happens on the following
(second) failure. -/
theorem c4_retry_cap_counterexample :
    (afterTransientFailures 1 0 5 1).statusSetFailed = false
    ∧ (afterTransientFailures 1 0 5 1).queue = [(0, 5)]
    ∧ afterTransientFailures 1 0 5 2
        = { attempts := 2, queue := [], statusSetFailed := true, abortLogged := true } := by
  exact ⟨rfl, rfl, rfl⟩

/-- C4 amended: a run is marked `failed` and dropped once its attempt
counter *exceeds* `max_retries`, i.e. on transient failure number
`max_retries + 1`; through the first `max_retries` failures it is
re-enqueued each time with a backoff of `min 5 (1 + attempts)` seconds, and
after the terminal failure the identifier is never re-enqueued and the
counter stops growing. -/
theorem c4_retry_cap_amended :
    ∀ (maxRetries pid rid : Nat),
      (∀ k, k ≤ maxRetries →
          afterTransientFailures maxRetries pid rid k
            = { attempts := k, queue := [(pid, rid)],
                statusSetFailed := false, abortLogged := false })
      ∧ afterTransientFailures maxRetries pid rid (maxRetries + 1)
          = { attempts := maxRetries + 1, queue := [],
              statusSetFailed := true, abortLogged := true }
      ∧ (∀ j, maxRetries + 1 ≤ j →
          afterTransientFailures maxRetries pid rid j
            = { attempts := maxRetries + 1, queue := [],
                statusSetFailed := true, abortLogged := true })
      ∧ (∀ st : ConsumeState, st.attempts + 1 ≤ maxRetries →
          consumeFailureStep maxRetries pid rid st
            = ({ st with attempts := st.attempts + 1, queue := st.queue ++ [(pid, rid)] },
                min 5 (1 + (st.attempts + 1)))) := by
  intro maxRetries pid rid
  have main : ∀ k, k ≤ maxRetries →
      afterTransientFailures maxRetries pid rid k
        = { attempts := k, queue := [(pid, rid)],
            statusSetFailed := false, abortLogged := false } := by
    intro k
    induction k with
    | zero => intro _; rfl
    | succ n ih =>
      intro hk
      have hprev := ih (by omega)
      unfold afterTransientFailures at *
      rw [Function.iterate_succ_apply', hprev]
      simp only [consumeLoopTransientStep, consumeFailureStep]
      rw [if_neg (by omega)]
      simp
  have top : afterTransientFailures maxRetries pid rid (maxRetries + 1)
      = { attempts := maxRetries + 1, queue := [],
          statusSetFailed := true, abortLogged := true } := by
    have hprev := main maxRetries (Nat.le_refl _)
    unfold afterTransientFailures at *
    rw [Function.iterate_succ_apply', hprev]
    simp only [consumeLoopTransientStep, consumeFailureStep]
    rw [if_pos (by omega)]
  refine ⟨main, top, ?_, ?_⟩
  · intro j hj
    induction j, hj using Nat.le_induction with
    | base => exact top
    | succ m hm ih =>
      unfold afterTransientFailures at *
      rw [Function.iterate_succ_apply', ih]
      rfl
  · intro st hcap
    simp only [consumeFailureStep]
    rw [if_neg (by omega)]

/-- Witness for C4 amended: with `max_retries = 3`, two failures leave the
run queued with two attempts recorded. -/
theorem c4_retry_cap_amended_witness :
    afterTransientFailures 3 1 5 2
      = { attempts := 2, queue := [(1, 5)], statusSetFailed := false, abortLogged := false } :=
  ((c4_retry_cap_amended 3 1 5).1 2 (by decide))

/-- C8: a pending run past the requeue threshold whose snapshot shows no
pending approval and no approval id is pushed exactly once — the first
watchdog pass takes the `SET NX` lock and pushes the identifier, and any
second pass while the lock is held (whatever its clock or threshold) leaves
the state unchanged; a run whose snapshot shows a pending approval is never
pushed. -/
theorem c8_watchdog_requeue_once :
    (∀ (thr now : Int) (pid : Nat) (run : WatchdogRun) (st : RedisState) (created : Int),
        run.status = "pending" → run.created_at = some created →
        thr ≤ now - created →
        run.approval_status ≠ some "pending" → optIdTruthy run.approval_id = false →
        requeueLockKey pid run.id ∉ st.locks →
        watchdogPendingStep thr now pid run st
            = { locks := requeueLockKey pid run.id :: st.locks,
                queue := queueEntry pid run.id :: st.queue }
          ∧ (∀ (thr2 now2 : Int),
              watchdogPendingStep thr2 now2 pid run
                  (watchdogPendingStep thr now pid run st)
                = watchdogPendingStep thr now pid run st))
  ∧ (∀ (thr now : Int) (pid : Nat) (run : WatchdogRun) (st : RedisState),
        run.approval_status = some "pending" → watchdogPendingStep thr now pid run st = st) := by
  constructor
  · intro thr now pid run st created hst hcre hage happ hid hlock
    have hfirst : watchdogPendingStep thr now pid run st
        = { locks := requeueLockKey pid run.id :: st.locks,
            queue := queueEntry pid run.id :: st.queue } := by
      simp only [watchdogPendingStep, hst, hcre]
      rw [if_neg (by simp [hst])]
      rw [if_neg (by omega)]
      rw [if_neg (by simp [happ, hid])]
      rw [if_neg hlock]
    refine ⟨hfirst, ?_⟩
    intro thr2 now2
    rw [hfirst]
    simp only [watchdogPendingStep, hst, hcre]
    rw [if_neg (by simp [hst])]
    by_cases hage2 : now2 - created < thr2
    · rw [if_pos hage2]
    · rw [if_neg hage2]
      rw [if_neg (by simp [happ, hid])]
      rw [if_pos (List.mem_cons_self _ _)]
  · intro thr now pid run st happ
    unfold watchdogPendingStep
    split
    · rfl
    · split
      · rfl
      · split
        · rfl
        · rw [if_pos (by simp [happ])]

/-- Witness for C8 at a concrete stale pending run: the first pass pushes
and locks. -/
theorem c8_watchdog_requeue_once_witness :
    watchdogPendingStep 120 200 1 ⟨7, "pending", some 0, none, none⟩ ⟨[], []⟩
      = { locks := [requeueLockKey 1 7], queue := [queueEntry 1 7] } :=
  (((c8_watchdog_requeue_once).1 120 200 1 ⟨7, "pending", some 0, none, none⟩ ⟨[], []⟩ 0
      rfl rfl (by decide) (by decide) rfl (by decide)).1)


/-- C5: for a run carrying truthy rotation ids whose secrets exist and are
visible, and with the temporary secret bound to no host, finalization on
terminal `success` rewrites the target secret from the temporary one
(value copied, `last_rotated_at` stamped, `next_rotated_at` recomputed) and
deletes the temporary secret; on any other terminal status the target is
unchanged and the temporary secret is still deleted — cleanup is
unconditional. -/
theorem c5_rotation_finalize :
    ∀ (store : List (Nat × SecretRec)) (hosts : List HostBind) (pid : Nat)
      (statusValue : String) (target temp : Nat) (now : Int)
      (tgtSec tmpSec : SecretRec),
      alookup store target = some tgtSec → alookup store temp = some tmpSec →
      secretVisible tgtSec pid = true → secretVisible tmpSec pid = true →
      target ≠ temp → target ≠ 0 → temp ≠ 0 →
      (∀ h ∈ hosts, h.credential_id ≠ some temp) →
      (statusValue = "success" →
        alookup (finalizeRotation store hosts pid statusValue (some target) (some temp) now) target
            = some (rotateSecretRec tgtSec tmpSec.value (pyStrOrElse tmpSec.passphrase none) now)
          ∧ (rotateSecretRec tgtSec tmpSec.value (pyStrOrElse tmpSec.passphrase none) now).value
            = tmpSec.value
          ∧ (rotateSecretRec tgtSec tmpSec.value (pyStrOrElse tmpSec.passphrase none) now).last_rotated_at
            = some now
          ∧ alookup (finalizeRotation store hosts pid statusValue (some target) (some temp) now) temp
            = none)
      ∧ (statusValue ≠ "success" →
        alookup (finalizeRotation store hosts pid statusValue (some target) (some temp) now) target
            = some tgtSec
          ∧ alookup (finalizeRotation store hosts pid statusValue (some target) (some temp) now) temp
            = none) := by
  intro store hosts pid statusValue target temp now tgtSec tmpSec
  intro hlt hltemp hvt hvtemp hne ht0 hp0 hcred
  have hreveal : revealInternal store temp pid = .ok (tmpSec.value, tmpSec.passphrase) := by
    simp [revealInternal, hltemp, hvtemp]
  have hrot : rotateEndpoint store target pid tmpSec.value (pyStrOrElse tmpSec.passphrase none) now
      = .ok (aupdate store target
          (fun r => rotateSecretRec r tmpSec.value (pyStrOrElse tmpSec.passphrase none) now)) := by
    simp [rotateEndpoint, hlt, hvt]
  have hdel : ∀ (st1 : List (Nat × SecretRec)), alookup st1 temp = some tmpSec →
      deleteEndpoint st1 hosts temp pid = .ok (aremove st1 temp) := by
    intro st1 hl1
    have hb : (hosts.any (fun h =>
        h.credential_id = some temp &&
          (match tmpSec.project_id with
           | none => true
           | some _ => h.project_id = pid))) = false := by
      simp only [List.any_eq_false]
      intro x hx
      simp [hcred x hx]
    simp [deleteEndpoint, hl1, hvtemp, hb]
  constructor
  · intro hsv
    subst hsv
    have hfinal : finalizeRotation store hosts pid "success" (some target) (some temp) now
        = aremove (aupdate store target
            (fun r => rotateSecretRec r tmpSec.value (pyStrOrElse tmpSec.passphrase none) now)) temp := by
      simp only [finalizeRotation, optIdTruthy]
      rw [if_neg (by simp [ht0, hp0])]
      simp only [Option.getD_some]
      rw [if_pos trivial]
      rw [hreveal]
      simp only
      rw [hrot]
      simp only
      rw [hdel _ (by rw [alookup_aupdate_ne _ _ _ _ (Ne.symm hne)]; exact hltemp)]
    refine ⟨?_, rfl, rfl, ?_⟩
    · rw [hfinal, alookup_aremove_ne _ _ _ hne, alookup_aupdate_self, hlt]
      rfl
    · rw [hfinal, alookup_aremove_self]
  · intro hsv
    have hfinal : finalizeRotation store hosts pid statusValue (some target) (some temp) now
        = aremove store temp := by
      simp only [finalizeRotation, optIdTruthy]
      rw [if_neg (by simp [ht0, hp0])]
      simp only [Option.getD_some]
      rw [if_neg hsv]
      rw [hdel _ hltemp]
    refine ⟨?_, ?_⟩
    · rw [hfinal, alookup_aremove_ne _ _ _ hne, hlt]
    · rw [hfinal, alookup_aremove_self]

/-- Witness for C5 at a concrete two-secret store: a failed run leaves the
target untouched and still deletes the temporary secret. -/
theorem c5_rotation_finalize_witness :
    alookup (finalizeRotation c5Store [] 1 "failed" (some 1) (some 2) 500) 1 = some c5Target
    ∧ alookup (finalizeRotation c5Store [] 1 "failed" (some 1) (some 2) 500) 2 = none :=
  (c5_rotation_finalize c5Store [] 1 "failed" 1 2 500 c5Target c5Temp rfl rfl rfl rfl
      (by decide) (by decide) (by decide) (by intro h hm; exact absurd hm (List.not_mem_nil h)))
    |>.2 (by decide)



theorem buildHostFilter_block (fs : List (String × RVal)) (op : String)
    (items : List RVal) (compiled : List (Host → Bool))
    (hfal : rfalsy (.obj fs) = false)
    (hop : pyLower (getOrDefault fs "op" (.s "and")) = .ok op)
    (hrules : dictGet fs "rules" = some (.arr items))
    (hcomp : compileItems items = .ok compiled) :
    buildHostFilter (.obj fs) =
      if op = "and" ∨ op = "or" then
        (if compiled.isEmpty then .ok (fun _ => false)
         else if op = "and" then .ok (fun h => compiled.all (fun p => p h))
         else .ok (fun h => compiled.any (fun p => p h)))
      else .ok (fun _ => false) := by
  rw [buildHostFilter.eq_def]
  rw [if_neg (by simp [hfal])]
  simp only [hop]
  split
  · rename_i items2 heq
    rw [hrules] at heq
    injection heq with heq2
    injection heq2 with heq3
    subst heq3
    simp only [hcomp]
  · rename_i hne
    exact absurd hrules (hne items)

theorem compileItems_skip_leaf (ifs : List (String × RVal)) (rest : List RVal)
    (itemOp : String)
    (hnr : (dictGet ifs "rules").isSome = false)
    (hop : pyLower (getOrDefault ifs "op" (.s "")) = .ok itemOp)
    (hcc : compileCondition (getOrNull ifs "field") itemOp (getOrNull ifs "value") = none) :
    compileItems (.obj ifs :: rest) = compileItems rest := by
  rw [compileItems.eq_def]
  simp only [hnr]
  rw [if_neg (by simp)]
  simp only [hop]
  split
  · rename_i e heq
    exact heq.symm
  · rename_i r heq
    rw [hcc]
    exact heq.symm

theorem compileItems_append_congr (pre : List RVal) (xs ys : List RVal)
    (h : compileItems xs = compileItems ys) :
    compileItems (pre ++ xs) = compileItems (pre ++ ys) := by
  induction pre with
  | nil => simpa using h
  | cons q pre ih =>
    rw [List.cons_append, List.cons_append]
    rw [compileItems.eq_def]
    conv_rhs => rw [compileItems.eq_def]
    cases q with
    | obj fs =>
      simp only
      by_cases hr : (dictGet fs "rules").isSome
      · rw [if_pos hr, if_pos hr]
        cases hb : buildHostFilter (.obj fs) with
        | error e => simp only [hb]
        | ok f =>
          simp only [hb, ih]
      · rw [if_neg hr, if_neg hr]
        cases hol : pyLower (getOrDefault fs "op" (.s "")) with
        | error e => simp only [hol]
        | ok itemOp =>
          simp only [hol, ih]
    | null => exact ih
    | s v => exact ih
    | i v => exact ih
    | b v => exact ih
    | arr vs => exact ih

/-- C2 counterexample: the conjunction `c2BadRule` contains a malformed
leaf (unknown field `bogus`), yet its compiled predicate matches the
production host `c2Host` — a rule tree with a malformed node does not
compile to the empty predicate. -/
theorem c2_malformed_node_counterexample :
    (buildHostFilter c2BadRule).map (fun p => p c2Host) = Except.ok true := by
  have h1 : compileItems
      [RVal.obj [("field", .s "environment"), ("op", .s "eq"), ("value", .s "prod")],
       RVal.obj [("field", .s "bogus"), ("op", .s "eq"), ("value", .s "x")]]
      = .ok [fun h => decide (h.environment = "prod")] := by
    simp [compileItems, buildHostFilter, rfalsy, getOrDefault, getOrNull, dictGet,
      pyLower, strLower, compileCondition, applyOp, startsWithChars, ALLOWED_FIELDS,
      ALLOWED_OPS, hostColumn, evalEq, RVal.beq, BEq.beq]
  have hb : buildHostFilter c2BadRule
      = .ok (fun h => [fun h : Host => decide (h.environment = "prod")].all (fun p => p h)) := by
    have hblock := buildHostFilter_block
      [("op", .s "and"),
       ("rules", .arr [RVal.obj [("field", .s "environment"), ("op", .s "eq"), ("value", .s "prod")],
                       RVal.obj [("field", .s "bogus"), ("op", .s "eq"), ("value", .s "x")]])]
      "and"
      [RVal.obj [("field", .s "environment"), ("op", .s "eq"), ("value", .s "prod")],
       RVal.obj [("field", .s "bogus"), ("op", .s "eq"), ("value", .s "x")]]
      [fun h : Host => decide (h.environment = "prod")]
      rfl rfl rfl h1
    rw [if_pos (Or.inl rfl)] at hblock
    rw [if_neg (by simp)] at hblock
    rw [if_pos rfl] at hblock
    exact hblock
  rw [hb]
  simp [Except.map, c2Host]

/-- C2 amended: fail-closed holds at block granularity — a truthy block
whose `rules` is not a list, or whose `op` is unknown, or none of whose
children compile, yields the constantly-false predicate — but a malformed
*leaf* inside a block is silently skipped rather than treated as false: a
leaf whose condition does not compile is dropped from any position of any
`rules` list, so two blocks whose children compile identically compile to
the same predicate; in particular the example conjunction of a valid leaf
and a malformed leaf compiles exactly like the conjunction without the
malformed leaf and matches the production host. -/
theorem c2_failclosed_amended :
    (∀ (fs : List (String × RVal)) (op : String),
        rfalsy (.obj fs) = false →
        pyLower (getOrDefault fs "op" (.s "and")) = .ok op →
        (∀ items, dictGet fs "rules" ≠ some (.arr items)) →
        buildHostFilter (.obj fs) = .ok (fun _ => false))
  ∧ (∀ (fs : List (String × RVal)) (op : String) (items : List RVal),
        rfalsy (.obj fs) = false →
        pyLower (getOrDefault fs "op" (.s "and")) = .ok op →
        dictGet fs "rules" = some (.arr items) →
        op ≠ "and" → op ≠ "or" →
        buildHostFilter (.obj fs) = .ok (fun _ => false))
  ∧ (∀ (fs : List (String × RVal)) (op : String) (items : List RVal),
        rfalsy (.obj fs) = false →
        pyLower (getOrDefault fs "op" (.s "and")) = .ok op →
        dictGet fs "rules" = some (.arr items) →
        compileItems items = .ok [] →
        buildHostFilter (.obj fs) = .ok (fun _ => false))
  ∧ (∀ (ifs : List (String × RVal)) (pre rest : List RVal) (itemOp : String),
        (dictGet ifs "rules").isSome = false →
        pyLower (getOrDefault ifs "op" (.s "")) = .ok itemOp →
        compileCondition (getOrNull ifs "field") itemOp (getOrNull ifs "value") = none →
        compileItems (pre ++ .obj ifs :: rest) = compileItems (pre ++ rest))
  ∧ (∀ (fs1 fs2 : List (String × RVal)) (op : String) (items1 items2 : List RVal)
        (compiled : List (Host → Bool)),
        rfalsy (.obj fs1) = false → rfalsy (.obj fs2) = false →
        pyLower (getOrDefault fs1 "op" (.s "and")) = .ok op →
        pyLower (getOrDefault fs2 "op" (.s "and")) = .ok op →
        dictGet fs1 "rules" = some (.arr items1) →
        dictGet fs2 "rules" = some (.arr items2) →
        compileItems items1 = .ok compiled →
        compileItems items2 = .ok compiled →
        buildHostFilter (.obj fs1) = buildHostFilter (.obj fs2))
  ∧ buildHostFilter c2BadRule = buildHostFilter c2GoodRule
  ∧ (buildHostFilter c2GoodRule).map (fun p => p c2Host) = Except.ok true := by
  have hleafs : compileItems
      [RVal.obj [("field", .s "environment"), ("op", .s "eq"), ("value", .s "prod")],
       RVal.obj [("field", .s "bogus"), ("op", .s "eq"), ("value", .s "x")]]
      = .ok [fun h => decide (h.environment = "prod")] := by
    simp [compileItems, buildHostFilter, rfalsy, getOrDefault, getOrNull, dictGet,
      pyLower, strLower, compileCondition, applyOp, startsWithChars, ALLOWED_FIELDS,
      ALLOWED_OPS, hostColumn, evalEq, RVal.beq, BEq.beq]
  have hleaf : compileItems
      [RVal.obj [("field", .s "environment"), ("op", .s "eq"), ("value", .s "prod")]]
      = .ok [fun h => decide (h.environment = "prod")] := by
    simp [compileItems, buildHostFilter, rfalsy, getOrDefault, getOrNull, dictGet,
      pyLower, strLower, compileCondition, applyOp, startsWithChars, ALLOWED_FIELDS,
      ALLOWED_OPS, hostColumn, evalEq, RVal.beq, BEq.beq]
  have hbad : buildHostFilter c2BadRule
      = .ok (fun h => [fun h : Host => decide (h.environment = "prod")].all (fun p => p h)) := by
    have hblock := buildHostFilter_block
      [("op", .s "and"),
       ("rules", .arr [RVal.obj [("field", .s "environment"), ("op", .s "eq"), ("value", .s "prod")],
                       RVal.obj [("field", .s "bogus"), ("op", .s "eq"), ("value", .s "x")]])]
      "and"
      [RVal.obj [("field", .s "environment"), ("op", .s "eq"), ("value", .s "prod")],
       RVal.obj [("field", .s "bogus"), ("op", .s "eq"), ("value", .s "x")]]
      [fun h : Host => decide (h.environment = "prod")]
      rfl rfl rfl hleafs
    rw [if_pos (Or.inl rfl)] at hblock
    rw [if_neg (by simp)] at hblock
    rw [if_pos rfl] at hblock
    exact hblock
  have hgood : buildHostFilter c2GoodRule
      = .ok (fun h => [fun h : Host => decide (h.environment = "prod")].all (fun p => p h)) := by
    have hblock := buildHostFilter_block
      [("op", .s "and"),
       ("rules", .arr [RVal.obj [("field", .s "environment"), ("op", .s "eq"), ("value", .s "prod")]])]
      "and"
      [RVal.obj [("field", .s "environment"), ("op", .s "eq"), ("value", .s "prod")]]
      [fun h : Host => decide (h.environment = "prod")]
      rfl rfl rfl hleaf
    rw [if_pos (Or.inl rfl)] at hblock
    rw [if_neg (by simp)] at hblock
    rw [if_pos rfl] at hblock
    exact hblock
  refine ⟨?_, ?_, ?_, ?_, ?_, ?_, ?_⟩
  · intro fs op hfal hop hrules
    rw [buildHostFilter.eq_def]
    rw [if_neg (by simp [hfal])]
    simp only [hop]
  · intro fs op items hfal hop hrules hand hor
    rw [buildHostFilter.eq_def]
    rw [if_neg (by simp [hfal])]
    simp only [hop]
    split
    · rw [if_neg (by simp [hand, hor])]
    · rfl
  · intro fs op items hfal hop hrules hempty
    rw [buildHostFilter_block fs op items [] hfal hop hrules hempty]
    by_cases hok : op = "and" ∨ op = "or"
    · rw [if_pos hok]
      simp
    · rw [if_neg hok]
  · intro ifs pre rest itemOp hnr hop hcc
    exact compileItems_append_congr pre _ _ (compileItems_skip_leaf ifs rest itemOp hnr hop hcc)
  · intro fs1 fs2 op items1 items2 compiled hf1 hf2 ho1 ho2 hr1 hr2 hc1 hc2
    rw [buildHostFilter_block fs1 op items1 compiled hf1 ho1 hr1 hc1,
        buildHostFilter_block fs2 op items2 compiled hf2 ho2 hr2 hc2]
  · rw [hbad, hgood]
  · rw [hgood]
    simp [Except.map, c2Host]

/-- Witness for C2 amended: a block whose `rules` value is the string
`"x"` compiles to the empty predicate. -/
theorem c2_failclosed_amended_witness :
    buildHostFilter (.obj [("op", RVal.s "and"), ("rules", RVal.s "x")])
      = .ok (fun _ => false) :=
  (c2_failclosed_amended).1 [("op", RVal.s "and"), ("rules", RVal.s "x")] "and"
    rfl rfl
    (by intro items h; simp [dictGet] at h)


theorem findMatches_eq_nil : ∀ (s : List Char), anyMatch s = false → findMatches s = [] := by
  intro s
  induction s with
  | nil => intro _; simp [findMatches]
  | cons c cs ih =>
    intro h
    simp only [anyMatch, Bool.or_eq_false_iff] at h
    obtain ⟨h1, h2⟩ := h
    rw [findMatches.eq_def]
    show (match hm : matchSecretRefAt (c :: cs) with
          | some (g0, g1, rest) => (g0, g1) :: findMatches rest
          | none => findMatches cs) = []
    split
    · rename_i g0 g1 rest heq
      rw [heq] at h1
      simp at h1
    · exact ih h2

/-- C1 (code bug): the pattern compiled from the doubly-escaped raw string
at `worker.py` line 40 never matches the documented `secret:` reference
syntax.  On the spec's example `"pw=\x7b\x7b secret:7 \x7d\x7d"` the
resolver finds no match, returns the string unchanged, and reveals
nothing — instead of producing `"pw=hunter2"` with one reveal of secret 7;
what the compiled pattern does match is the literal-backslash form
`"\\\x7b\\\x7b\\secret:\\d\\\\\x7d\\\x7d"`, whose capture group then
cannot even be parsed by `int()`. -/
theorem c1_secret_ref_resolution_bug :
    resolveString (fun sid => if sid = 7 then "hunter2" else "") [] c1Input
      = .ok (c1Input, [])
    ∧ c1Input ≠ "pw=hunter2"
    ∧ anyMatch c1Input.toList = false
    ∧ (matchSecretRefAt ("\\\x7b\\\x7b\\secret:\\d\\\\\x7d\\\x7d".toList)).isSome = true
    ∧ pyInt ['\\', 'd'] = none := by
  have hno : anyMatch c1Input.toList = false := by decide
  have hfm : findMatches c1Input.toList = [] := findMatches_eq_nil _ hno
  refine ⟨?_, by decide, hno, by decide, by decide⟩
  simp only [resolveString]
  rw [hfm]
  simp

end ItManager
